import Mathlib

/-!
Verification development for the go-openproject client library core:
request building, the three authentication transports, the generic
CRUD dispatcher, the response pagination envelope, filter
serialization and the date/time wire codecs.  Each Go function of the
source is embedded as an executable Lean definition; external
collaborators (the HTTP transport, the JSON decoder, the JWT signer)
appear as explicit function parameters, mirroring the library
boundaries of the source.
-/

namespace OpenProject

/-! ## Character, byte and string helpers mirroring the Go standard library -/

/-- Character for a decimal digit value. -/
def digitChar (n : Nat) : Char := Char.ofNat (48 + n)

/-- Uppercase hexadecimal digit, as produced by Go percent-encoding. -/
def hexDigitUpper (n : Nat) : Char :=
  if n < 10 then Char.ofNat (48 + n) else Char.ofNat (55 + n)

/-- UTF-8 byte sequence of a character (Go strings are byte sequences
in UTF-8; escaping in net/url operates on these bytes). -/
def utf8Bytes (c : Char) : List Nat :=
  let n := c.toNat
  if n < 0x80 then [n]
  else if n < 0x800 then [0xC0 + n / 0x40, 0x80 + n % 0x40]
  else if n < 0x10000 then [0xE0 + n / 0x1000, 0x80 + n / 0x40 % 0x40, 0x80 + n % 0x40]
  else [0xF0 + n / 0x40000, 0x80 + n / 0x1000 % 0x40, 0x80 + n / 0x40 % 0x40, 0x80 + n % 0x40]

/-- Bytes of a whole string. -/
def stringUTF8Bytes (s : String) : List Nat := s.data.flatMap utf8Bytes

/-- Characters Go url.QueryEscape leaves unescaped: alphanumerics and dash,
underscore, dot, tilde. -/
def goQueryUnreserved (c : Char) : Bool :=
  (('A' ≤ c && c ≤ 'Z') || ('a' ≤ c && c ≤ 'z') || ('0' ≤ c && c ≤ '9')
    || c == '-' || c == '_' || c == '.' || c == '~')

/-- Percent-encoding of one byte with uppercase hex, as in Go net/url. -/
def escapeByte (b : Nat) : String :=
  String.mk ['%', hexDigitUpper (b / 16), hexDigitUpper (b % 16)]

/-- Per-character step of Go url.QueryEscape: unreserved chars pass through,
a space becomes a plus, everything else is percent-encoded byte by byte. -/
def queryEscapeChar (c : Char) : String :=
  if goQueryUnreserved c then String.singleton c
  else if c == ' ' then "+"
  else String.join ((utf8Bytes c).map escapeByte)

/-- Go url.QueryEscape. -/
def queryEscape (s : String) : String := String.join (s.data.map queryEscapeChar)

/-- Go strings.Replace with a single-character pattern and count -1. -/
def replaceChar (s : String) (target : Char) (repl : String) : String :=
  String.mk (s.data.flatMap (fun c => if c == target then repl.data else [c]))

/-- Go strings.TrimLeft with cutset "/". -/
def trimLeftSlashes (s : String) : String :=
  String.mk (s.data.dropWhile (fun c => c == '/'))

/-- Go strings.TrimRight with cutset "/". -/
def trimRightSlashes (s : String) : String :=
  String.mk (((s.data.reverse).dropWhile (fun c => c == '/')).reverse)

/-- Go strings.Trim with cutset "/". -/
def trimSlashesBoth (s : String) : String := trimLeftSlashes (trimRightSlashes s)

/-- Go strings.ToUpper restricted to ASCII, which is all the callers use. -/
def goToUpper (s : String) : String := String.mk (s.data.map Char.toUpper)

/-! ## JWT canonical query string (JWTAuthTransport.canonicalizeRequest) -/

/-- Append one value under its key, as Go url.Values building appends
m[key] = append(m[key], value) pair by pair. -/
def insertPairValue (k v : String) : List (String × List String) → List (String × List String)
  | [] => [(k, [v])]
  | (k1, vs) :: rest =>
    if k1 == k then (k1, vs ++ [v]) :: rest else (k1, vs) :: insertPairValue k v rest

/-- Grouping of query pairs by key as in Go url.Values: each key maps to
the list of its values in order of appearance.  Keys are listed by first
occurrence; the canonicalization sorts afterwards, so any enumeration
order of the Go map yields the same canonical string. -/
def groupQuery (q : List (String × String)) : List (String × List String) :=
  q.foldl (fun acc kv => insertPairValue kv.1 kv.2 acc) []

/-- Lexicographic order on character lists by code point.  UTF-8 byte
order coincides with code-point order, so this is exactly the byte-wise
string order Go sort.Strings uses. -/
def lexLeB : List Char → List Char → Bool
  | [], _ => true
  | _ :: _, [] => false
  | a :: as, b :: bs =>
    if a.toNat < b.toNat then true
    else if b.toNat < a.toNat then false
    else lexLeB as bs

/-- The Go string order as a relation. -/
def strLe (a b : String) : Prop := lexLeB a.data b.data = true

instance : DecidableRel strLe := fun a b => Bool.decEq (lexLeB a.data b.data) true

instance : IsTotal String strLe where
  total := by
    suffices h : ∀ x y : List Char, lexLeB x y = true ∨ lexLeB y x = true by
      intro a b
      exact h a.data b.data
    intro x
    induction x with
    | nil => intro y; left; rfl
    | cons a as ih =>
      intro y
      cases y with
      | nil => right; rfl
      | cons b bs =>
        by_cases h1 : a.toNat < b.toNat
        · left; simp [lexLeB, h1]
        · by_cases h2 : b.toNat < a.toNat
          · right; simp [lexLeB, h2]
          · rcases ih bs with h | h
            · left; simp [lexLeB, h1, h2, h]
            · right; simp [lexLeB, h1, h2, h]

instance : IsTrans String strLe where
  trans := by
    suffices h : ∀ x y z : List Char,
        lexLeB x y = true → lexLeB y z = true → lexLeB x z = true by
      intro a b c hab hbc
      exact h a.data b.data c.data hab hbc
    intro x
    induction x with
    | nil => intro y z _ _; rfl
    | cons a as ih =>
      intro y z hxy hyz
      cases y with
      | nil => simp [lexLeB] at hxy
      | cons b bs =>
        cases z with
        | nil => simp [lexLeB] at hyz
        | cons c cs =>
          by_cases h1 : a.toNat < b.toNat
          · by_cases h2 : b.toNat < c.toNat
            · have h3 : a.toNat < c.toNat := by omega
              simp [lexLeB, h3]
            · by_cases h3 : c.toNat < b.toNat
              · simp only [lexLeB, if_neg h2, if_pos h3] at hyz
                simp at hyz
              · have h4 : a.toNat < c.toNat := by omega
                simp [lexLeB, h4]
          · by_cases h4 : b.toNat < a.toNat
            · simp only [lexLeB, if_neg h1, if_pos h4] at hxy
              simp at hxy
            · by_cases h2 : b.toNat < c.toNat
              · have h3 : a.toNat < c.toNat := by omega
                simp [lexLeB, h3]
              · by_cases h3 : c.toNat < b.toNat
                · simp only [lexLeB, if_neg h2, if_pos h3] at hyz
                  simp at hyz
                · simp only [lexLeB, if_neg h1, if_neg h4] at hxy
                  simp only [lexLeB, if_neg h2, if_neg h3] at hyz
                  have h5 : ¬a.toNat < c.toNat := by omega
                  have h6 : ¬c.toNat < a.toNat := by omega
                  simp only [lexLeB, if_neg h5, if_neg h6]
                  exact ih bs cs hxy hyz

instance : IsAntisymm String strLe where
  antisymm := by
    suffices h : ∀ x y : List Char, lexLeB x y = true → lexLeB y x = true → x = y by
      intro a b hab hba
      have h2 := h a.data b.data hab hba
      cases a
      cases b
      exact congrArg String.mk h2
    intro x
    induction x with
    | nil =>
      intro y h1 h2
      cases y with
      | nil => rfl
      | cons b bs => simp [lexLeB] at h2
    | cons a as ih =>
      intro y h1 h2
      cases y with
      | nil => simp [lexLeB] at h1
      | cons b bs =>
        by_cases hh1 : a.toNat < b.toNat
        · have hnb : ¬b.toNat < a.toNat := by omega
          simp only [lexLeB, if_neg hnb, if_pos hh1] at h2
          simp at h2
        · by_cases hh2 : b.toNat < a.toNat
          · simp only [lexLeB, if_neg hh1, if_pos hh2] at h1
            simp at h1
          · have hab : a = b := by
              apply Char.ext
              apply UInt32.ext
              show a.toNat = b.toNat
              omega
            subst hab
            have hirr : ¬a.toNat < a.toNat := by omega
            simp only [lexLeB, if_neg hirr] at h1 h2
            rw [ih bs h1 h2]

/-- One canonical "key=value" component: both sides query-escaped, the
values of the key joined with no separator, and plus signs rewritten to
percent-20, exactly as the Go source builds it. -/
def canonPairStr (k : String) (vs : List String) : String :=
  replaceChar (queryEscape k ++ "=" ++ queryEscape (String.join vs)) '+' "%20"

/-- Embedding of JWTAuthTransport.canonicalizeRequest: uppercased method,
normalized path (trimmed of slashes, re-rooted, ampersands escaped) and the
sorted canonical query components joined with ampersands; the `jwt`
parameter is skipped. -/
def canonicalizeRequest (method path : String) (query : List (String × String)) : String :=
  let p := "/" ++ replaceChar (trimSlashesBoth path) '&' "%26"
  let pairs := (groupQuery query).filterMap
    (fun kv => if kv.1 == "jwt" then none else some (canonPairStr kv.1 kv.2))
  let sorted := List.insertionSort strLe pairs
  goToUpper method ++ "&" ++ p ++ "&" ++ String.intercalate "&" sorted

/-- The canonical string as the specification words it: uppercase(method),
normalized path, and the sorted URL-escaped key=value pairs — one pair per
supplied query parameter — joined by ampersands, with the jwt parameter
excluded.  Stated separately from the source embedding so the two can be
compared. -/
def canonicalStringSpec (method path : String) (query : List (String × String)) : String :=
  let pairs := query.filterMap
    (fun kv => if kv.1 == "jwt" then none else some (canonPairStr kv.1 [kv.2]))
  goToUpper method ++ "&" ++ ("/" ++ replaceChar (trimSlashesBoth path) '&' "%26") ++ "&" ++
    String.intercalate "&" (List.insertionSort strLe pairs)

/-! ## Search operators and filter serialization -/

/-- SearchOperator constants of work-package.go. -/
inductive SearchOperator
  | Equal
  | Different
  | GreaterThan
  | LowerThan
  | SearchString
  | Like
  | GreaterOrEqual
  | LowerOrEqual
deriving DecidableEq, Repr

/-- Embedding of interpretOperator: a switch with cases only for
GreaterThan, LowerThan and Different, every other operator falling back to
the default "=" (the source carries a TODO to complete the list). -/
def interpretOperator (operator : SearchOperator) : String :=
  match operator with
  | .GreaterThan => ">"
  | .LowerThan => "<"
  | .Different => "<>"
  | _ => "="

/-- OptionsFields of work-package.go. -/
structure OptionsFields where
  field : String
  operator : SearchOperator
  value : String
deriving DecidableEq, Repr

/-- FilterOptions of work-package.go. -/
structure FilterOptions where
  fields : List OptionsFields
deriving DecidableEq, Repr

/-- Embedding of FilterOptions.prepareFilters: a single `filters` query
parameter holding a JSON-array-shaped string with one object per field
triple, built exactly as the Go format string does. -/
def prepareFilters (fops : FilterOptions) : List (String × String) :=
  let filterTemplate :=
    "[" ++ String.join (fops.fields.map (fun f =>
      "\x7b\"" ++ f.field ++ "\":\x7b\"operator\":\"" ++ interpretOperator f.operator
        ++ "\",\"values\":[\"" ++ f.value ++ "\"]\x7d\x7d")) ++ "]"
  [("filters", filterTemplate)]

/-! ## Date and time wire codecs (work-package.go)

The Go source stores instants as time.Time and formats with the layouts
"2006-01-02T15:04:05Z" and "2006-01-02"; both layouts carry no zone
directive, so parsing and formatting exchange plain calendar fields.  The
embedding represents a timestamp by those fields. -/

/-- Timestamp fields exchanged by the layout 2006-01-02T15:04:05Z. -/
structure OPTime where
  year : Nat
  month : Nat
  day : Nat
  hour : Nat
  minute : Nat
  second : Nat
deriving DecidableEq, Repr

/-- Calendar-date fields exchanged by the layout 2006-01-02. -/
structure OPDate where
  year : Nat
  month : Nat
  day : Nat
deriving DecidableEq, Repr

/-- Gregorian leap-year rule used by Go package time. -/
def isLeapYear (y : Nat) : Bool := (y % 4 == 0 && y % 100 != 0) || y % 400 == 0

/-- Days in a month, as Go package time validates a parsed day. -/
def daysInMonth (y m : Nat) : Nat :=
  if m == 2 then (if isLeapYear y then 29 else 28)
  else if m == 4 || m == 6 || m == 9 || m == 11 then 30
  else 31

/-- Field validation performed by Go time.Parse for the timestamp layout;
four-digit formatting restricts the year. -/
def checkTime (y mo d h mi s : Nat) : Bool :=
  y ≤ 9999 && 1 ≤ mo && mo ≤ 12 && 1 ≤ d && d ≤ daysInMonth y mo
    && h ≤ 23 && mi ≤ 59 && s ≤ 59

/-- Field validation for the date-only layout. -/
def checkDate (y mo d : Nat) : Bool :=
  y ≤ 9999 && 1 ≤ mo && mo ≤ 12 && 1 ≤ d && d ≤ daysInMonth y mo

/-- Two-digit zero-padded rendering, as the layout components 01, 02, 15,
04, 05 produce for in-range fields. -/
def pad2Chars (n : Nat) : List Char := [digitChar (n / 10 % 10), digitChar (n % 10)]

/-- Four-digit zero-padded rendering for the layout component 2006. -/
def pad4Chars (n : Nat) : List Char :=
  [digitChar (n / 1000 % 10), digitChar (n / 100 % 10), digitChar (n / 10 % 10), digitChar (n % 10)]

/-- Character list of Time.MarshalJSON output: the quoted timestamp. -/
def timeMarshalChars (t : OPTime) : List Char :=
  '"' :: (pad4Chars t.year ++ ('-' :: (pad2Chars t.month ++ ('-' :: (pad2Chars t.day ++
    ('T' :: (pad2Chars t.hour ++ (':' :: (pad2Chars t.minute ++
      (':' :: (pad2Chars t.second ++ ['Z', '"'])))))))))))

/-- Embedding of Time.MarshalJSON. -/
def timeMarshalJSON (t : OPTime) : String := String.mk (timeMarshalChars t)

/-- Character list of Date.MarshalJSON output: the quoted date. -/
def dateMarshalChars (d : OPDate) : List Char :=
  '"' :: (pad4Chars d.year ++ ('-' :: (pad2Chars d.month ++ ('-' :: (pad2Chars d.day ++ ['"'])))))

/-- Embedding of Date.MarshalJSON. -/
def dateMarshalJSON (d : OPDate) : String := String.mk (dateMarshalChars d)

/-- Decimal digit parser. -/
def parseDigit (c : Char) : Option Nat :=
  if '0' ≤ c && c ≤ '9' then some (c.toNat - 48) else none

/-- Go time.Parse against the quoted fixed-width layout
2006-01-02T15:04:05Z: the literal separators must match exactly, the
digit components are read at their fixed positions, and the ranges are
validated as time.Parse does. -/
def parseQuotedTime : List Char → Option OPTime
  | ['"', y1, y2, y3, y4, '-', m1, m2, '-', d1, d2, 'T',
      h1, h2, ':', i1, i2, ':', s1, s2, 'Z', '"'] =>
    match parseDigit y1, parseDigit y2, parseDigit y3, parseDigit y4,
      parseDigit m1, parseDigit m2, parseDigit d1, parseDigit d2,
      parseDigit h1, parseDigit h2, parseDigit i1, parseDigit i2,
      parseDigit s1, parseDigit s2 with
    | some a1, some a2, some a3, some a4, some b1, some b2, some c1, some c2,
      some e1, some e2, some f1, some f2, some g1, some g2 =>
      let y := 1000 * a1 + 100 * a2 + 10 * a3 + a4
      let mo := 10 * b1 + b2
      let d := 10 * c1 + c2
      let h := 10 * e1 + e2
      let mi := 10 * f1 + f2
      let s := 10 * g1 + g2
      if checkTime y mo d h mi s then some ⟨y, mo, d, h, mi, s⟩ else none
    | _, _, _, _, _, _, _, _, _, _, _, _, _, _ => none
  | _ => none

/-- Go time.Parse against the quoted fixed-width layout 2006-01-02. -/
def parseQuotedDate : List Char → Option OPDate
  | ['"', y1, y2, y3, y4, '-', m1, m2, '-', d1, d2, '"'] =>
    match parseDigit y1, parseDigit y2, parseDigit y3, parseDigit y4,
      parseDigit m1, parseDigit m2, parseDigit d1, parseDigit d2 with
    | some a1, some a2, some a3, some a4, some b1, some b2, some c1, some c2 =>
      let y := 1000 * a1 + 100 * a2 + 10 * a3 + a4
      let mo := 10 * b1 + b2
      let d := 10 * c1 + c2
      if checkDate y mo d then some ⟨y, mo, d⟩ else none
    | _, _, _, _, _, _, _, _ => none
  | _ => none

/-- Embedding of Time.UnmarshalJSON: a literal null leaves the receiver
unchanged and reports no error; otherwise the quoted layout is parsed. -/
def timeUnmarshalJSON (b : String) (t : OPTime) : Except String OPTime :=
  if b == "null" then .ok t
  else
    match parseQuotedTime b.data with
    | some v => .ok v
    | none => .error "parsing time error"

/-- Embedding of Date.UnmarshalJSON. -/
def dateUnmarshalJSON (b : String) (d : OPDate) : Except String OPDate :=
  if b == "null" then .ok d
  else
    match parseQuotedDate b.data with
    | some v => .ok v
    | none => .error "parsing time error"

/-! ## Base64 and the basic-auth header value -/

/-- The standard base64 alphabet used by Go SetBasicAuth. -/
def base64Char (n : Nat) : Char :=
  ("ABCDEFGHIJKLMNOPQRSTUVWXYZabcdefghijklmnopqrstuvwxyz0123456789+/".data).getD n 'A'

/-- Standard base64 with padding over a byte list. -/
def base64Encode : List Nat → String
  | [] => ""
  | [b1] => String.mk [base64Char (b1 / 4), base64Char (b1 % 4 * 16), '=', '=']
  | [b1, b2] =>
    String.mk [base64Char (b1 / 4), base64Char (b1 % 4 * 16 + b2 / 16), base64Char (b2 % 16 * 4), '=']
  | b1 :: b2 :: b3 :: rest =>
    String.mk [base64Char (b1 / 4), base64Char (b1 % 4 * 16 + b2 / 16),
      base64Char (b2 % 16 * 4 + b3 / 64), base64Char (b3 % 64)] ++ base64Encode rest

/-- The Authorization value set by Go Request.SetBasicAuth. -/
def basicAuthHeaderValue (username password : String) : String :=
  "Basic " ++ base64Encode (stringUTF8Bytes (username ++ ":" ++ password))

/-! ## Header maps with explicit identity

Go requests share header maps by reference; cloneRequest deep-copies the
map so a transport never mutates its input request.  The embedding makes
the aliasing explicit with a small heap of header maps addressed by
natural numbers. -/

/-- A header map value: keys with their value lists, as http.Header. -/
abbrev HeaderMap := List (String × List String)

/-- Go Header.Set: replace the values of a key. -/
def headerSet : HeaderMap → String → String → HeaderMap
  | [], k, v => [(k, [v])]
  | (k1, vs) :: rest, k, v =>
    if k1 == k then (k, [v]) :: rest else (k1, vs) :: headerSet rest k v

/-- Go Header.Add: append a value to a key. -/
def headerAdd : HeaderMap → String → String → HeaderMap
  | [], k, v => [(k, [v])]
  | (k1, vs) :: rest, k, v =>
    if k1 == k then (k1, vs ++ [v]) :: rest else (k1, vs) :: headerAdd rest k v

/-- All values of a key. -/
def headerGetAll (hs : HeaderMap) (k : String) : List String :=
  match hs with
  | [] => []
  | (k1, vs) :: rest => if k1 == k then vs else headerGetAll rest k

/-- Go Header.Get: the first value of a key, or the empty string. -/
def headerGet1 (hs : HeaderMap) (k : String) : String := (headerGetAll hs k).headD ""

/-- Heap of header maps: the next fresh address and the contents stored at
each address. -/
structure Heap where
  next : Nat
  store : Nat → HeaderMap

/-- Allocate a fresh header map holding the given contents. -/
def Heap.alloc (h : Heap) (c : HeaderMap) : Heap × Nat :=
  (⟨h.next + 1, fun a => if a == h.next then c else h.store a⟩, h.next)

/-- Overwrite the contents stored at an address. -/
def Heap.write (h : Heap) (a : Nat) (c : HeaderMap) : Heap :=
  ⟨h.next, fun x => if x == a then c else h.store x⟩

/-- An outgoing request as the transports see it: the shallow-copied
fields plus the address of its header map. -/
structure HRequest where
  method : String
  path : String
  query : List (String × String)
  headerRef : Nat
deriving DecidableEq, Repr

/-- Embedding of cloneRequest: shallow copy of the struct, deep copy of
the header map into a fresh address. -/
def cloneRequest (h : Heap) (r : HRequest) : Heap × HRequest :=
  let contents := h.store r.headerRef
  let (h2, a) := h.alloc contents
  (h2, { r with headerRef := a })

/-! ## The three authentication transports -/

/-- BasicAuthTransport credential pair. -/
structure BasicAuthTransport where
  username : String
  password : String
deriving DecidableEq, Repr

/-- Embedding of BasicAuthTransport.RoundTrip up to the delegation to the
underlying transport: the heap after the call and the outgoing request
handed to the inner round tripper. -/
def BasicAuthTransport.roundTripPrep (t : BasicAuthTransport) (h : Heap) (r : HRequest) :
    Heap × HRequest :=
  let (h1, r2) := cloneRequest h r
  (h1.write r2.headerRef
    (headerSet (h1.store r2.headerRef) "Authorization"
      (basicAuthHeaderValue t.username t.password)), r2)

/-- Claim set the signed-token transport embeds. -/
structure JWTClaims where
  iss : String
  iat : Nat
  exp : Nat
  qsh : String
deriving DecidableEq, Repr

/-- JWTAuthTransport configuration. -/
structure JWTAuthTransport where
  secret : String
  issuer : String
deriving DecidableEq, Repr

/-- Embedding of JWTAuthTransport.RoundTrip up to the delegation to the
underlying transport.  The sha256 hex digest and the HS256 signer are
external libraries and appear as function parameters. -/
def JWTAuthTransport.roundTripPrep (t : JWTAuthTransport)
    (hashHex : String → String) (sign : String → JWTClaims → String)
    (now : Nat) (h : Heap) (r : HRequest) : Heap × HRequest :=
  let (h1, r2) := cloneRequest h r
  let qsh := hashHex (canonicalizeRequest r.method r2.path r2.query)
  let token := sign t.secret ⟨t.issuer, now, now + 59, qsh⟩
  (h1.write r2.headerRef
    (headerSet (h1.store r2.headerRef) "Authorization" ("JWT " ++ token)), r2)

/-- A session cookie: name and value. -/
structure Cookie where
  name : String
  value : String
deriving DecidableEq, Repr

/-- CookieAuthTransport state; a nil Go cookie slice is none, a cached
slice (possibly empty) is some. -/
structure CookieAuthTransport where
  username : String
  password : String
  authURL : String
  sessionObject : Option (List Cookie)
deriving DecidableEq, Repr

/-- Lowercase hexadecimal digit, as Go encoding/json unicode escapes use. -/
def hexDigitLower (n : Nat) : Char :=
  if n < 10 then Char.ofNat (48 + n) else Char.ofNat (87 + n)

/-- Go encoding/json escaping of one string character, with the default
HTML escaping of the angle brackets and ampersand. -/
def goJSONEscapeChar (c : Char) : List Char :=
  if c == '"' then ['\\', '"']
  else if c == '\\' then ['\\', '\\']
  else if c == '\n' then ['\\', 'n']
  else if c == '\r' then ['\\', 'r']
  else if c == '\t' then ['\\', 't']
  else if c == '<' || c == '>' || c == '&' then
    ['\\', 'u', '0', '0', hexDigitLower (c.toNat / 16), hexDigitLower (c.toNat % 16)]
  else if c.toNat < 0x20 then
    ['\\', 'u', '0', '0', hexDigitLower (c.toNat / 16), hexDigitLower (c.toNat % 16)]
  else [c]

/-- Go encoding/json rendering of a string value. -/
def goJSONString (s : String) : String :=
  String.mk ('"' :: (s.data.flatMap goJSONEscapeChar ++ ['"']))

/-- The login body json.NewEncoder writes for the anonymous
username/password struct, newline terminated. -/
def encodeUserPassBody (u p : String) : String :=
  "\x7b\"username\":" ++ goJSONString u ++ ",\"password\":" ++ goJSONString p ++ "\x7d\n"

/-- The login request of buildAuthRequest. -/
structure LoginRequest where
  method : String
  url : String
  body : String
  headers : HeaderMap
deriving DecidableEq, Repr

/-- What the login exchange yields: the HTTP status and the cookies the
response set. -/
structure LoginResponse where
  status : Nat
  cookies : List Cookie
deriving DecidableEq, Repr

/-- Embedding of buildAuthRequest: a POST of the JSON credential body to
the configured auth URL with a JSON content type. -/
def CookieAuthTransport.buildAuthRequest (t : CookieAuthTransport) : LoginRequest :=
  ⟨"POST", t.authURL, encodeUserPassBody t.username t.password,
    headerSet [] "Content-Type" "application/json"⟩

/-- Embedding of setSessionObject: perform the login POST through the
dedicated auth client (the loginDo parameter); a transport-level failure
is returned, any received response has its cookies stored as the session
with no inspection of the status code. -/
def CookieAuthTransport.setSessionObject
    (loginDo : LoginRequest → Except String LoginResponse)
    (t : CookieAuthTransport) : Except String CookieAuthTransport :=
  match loginDo t.buildAuthRequest with
  | .error e => .error e
  | .ok resp => .ok { t with sessionObject := some resp.cookies }

/-- Go http.Request.AddCookie: render name=value and append to the Cookie
header, joined with a semicolon and space (cookie sanitization elided). -/
def addCookie (hs : HeaderMap) (c : Cookie) : HeaderMap :=
  let s := c.name ++ "=" ++ c.value
  let prev := headerGet1 hs "Cookie"
  if prev == "" then headerSet hs "Cookie" s else headerSet hs "Cookie" (prev ++ "; " ++ s)

/-- The attach phase of CookieAuthTransport.RoundTrip: clone the request
and add every session cookie whose value is non-empty. -/
def cookieAttach (session : List Cookie) (h : Heap) (r : HRequest) : Heap × HRequest :=
  let (h1, r2) := cloneRequest h r
  let contents := session.foldl
    (fun hs c => if c.value == "" then hs else addCookie hs c)
    (h1.store r2.headerRef)
  (h1.write r2.headerRef contents, r2)

/-- Embedding of CookieAuthTransport.RoundTrip up to the delegation to the
underlying transport.  Returns the transport state after the call, the
heap, the outcome (the outgoing request, or the wrapped auth error), and
the number of login calls performed. -/
def CookieAuthTransport.roundTripPrep
    (loginDo : LoginRequest → Except String LoginResponse)
    (t : CookieAuthTransport) (h : Heap) (r : HRequest) :
    CookieAuthTransport × Heap × Except String HRequest × Nat :=
  match t.sessionObject with
  | none =>
    match CookieAuthTransport.setSessionObject loginDo t with
    | .error e => (t, h, .error ("cookieauth: no session object has been set: " ++ e), 1)
    | .ok t1 =>
      let (h1, r2) := cookieAttach (t1.sessionObject.getD []) h r
      (t1, h1, .ok r2, 1)
  | some s =>
    let (h1, r2) := cookieAttach s h r
    (t, h1, .ok r2, 0)

/-! ## Client, request builder and generic dispatcher -/

/-- Modelled from usage: the authentication-mode constants the request
builders branch on; the authentication service file itself is not among
the provided sources, only its fields authType, username and password are
referenced. -/
inductive AuthType
  | noAuth
  | basicAuth
  | sessionAuth
deriving DecidableEq, Repr

/-- The fields of AuthenticationService the request builders read. -/
structure AuthenticationService where
  authType : AuthType
  username : String
  password : String
deriving DecidableEq, Repr

/-- The Client fields the embedded operations read.  NewClient guarantees
the base URL ends in a slash. -/
structure Client where
  baseURL : String
  auth : AuthenticationService
  session : Option (List Cookie)
deriving DecidableEq, Repr

/-- The eight resource kinds the generic dispatcher recognizes. -/
inductive ServiceKind
  | attachment
  | category
  | project
  | query
  | status
  | user
  | wikiPage
  | workPackage
deriving DecidableEq, Repr

/-- A resource object as the dispatcher routes it: either the
zero-initialized object a service kind allocates, or a decoded object. -/
inductive OPValue
  | zero (k : ServiceKind)
  | obj (k : ServiceKind) (data : String)
deriving DecidableEq, Repr

/-- The list-envelope types getObjectListAndClient allocates. -/
inductive ListKind
  | categoryList
  | searchResultProject
  | searchResultQuery
  | searchResultStatus
  | searchResultUser
  | searchResultWP
deriving DecidableEq, Repr

/-- A service handle as the dispatcher receives it: one of the eight
known service types carrying its client, or any other value. -/
inductive Handle
  | svc (k : ServiceKind) (c : Client)
  | other (name : String)
deriving DecidableEq, Repr

/-- Embedding of getObjectAndClient: the switch covers exactly the eight
service types, everything else leaves client and object nil. -/
def getObjectAndClient : Handle → Option (Client × ServiceKind)
  | .svc k c => some (c, k)
  | .other _ => none

/-- Embedding of getObjectListAndClient: the attachment case sets no list
object (a TODO in the source), the wiki-page case is commented out and so
falls through with a nil client, and unrecognized handles leave both
nil. -/
def getObjectListAndClient : Handle → Option Client × Option ListKind
  | .svc .attachment c => (some c, none)
  | .svc .category c => (some c, some .categoryList)
  | .svc .project c => (some c, some .searchResultProject)
  | .svc .query c => (some c, some .searchResultQuery)
  | .svc .status c => (some c, some .searchResultStatus)
  | .svc .user c => (some c, some .searchResultUser)
  | .svc .wikiPage _ => (none, none)
  | .svc .workPackage c => (some c, some .searchResultWP)
  | .other _ => (none, none)

/-- Go url.Parse acceptance for the endpoint strings the services build:
it rejects ASCII control characters. -/
def urlValid (s : String) : Bool :=
  s.data.all (fun c => 0x20 ≤ c.toNat && c.toNat != 0x7F)

/-- Go URL.ResolveReference for a relative path against a base URL with a
trailing slash, the only form the client uses. -/
def resolveReference (base rel : String) : String := base ++ rel

/-- Single-valued header list operations for built requests (each header
of interest is set once). -/
def hSet : List (String × String) → String → String → List (String × String)
  | [], k, v => [(k, v)]
  | (k1, v1) :: rest, k, v =>
    if k1 == k then (k, v) :: rest else (k1, v1) :: hSet rest k v

/-- Lookup in a single-valued header list. -/
def hGet : List (String × String) → String → Option String
  | [], _ => none
  | (k1, v1) :: rest, k => if k1 == k then some v1 else hGet rest k

/-- Go Request.AddCookie against single-valued headers. -/
def addCookie1 (hs : List (String × String)) (c : Cookie) : List (String × String) :=
  let s := c.name ++ "=" ++ c.value
  match hGet hs "Cookie" with
  | some prev => if prev == "" then hSet hs "Cookie" s else hSet hs "Cookie" (prev ++ "; " ++ s)
  | none => hSet hs "Cookie" s

/-- A built API request: method, resolved URL, raw query, JSON body value
and headers. -/
structure Request where
  method : String
  url : String
  rawQuery : String
  body : Option OPValue
  headers : List (String × String)
deriving DecidableEq, Repr

/-- A built raw-body API request, as NewRawRequestWithContext produces. -/
structure RawRequest where
  method : String
  url : String
  body : Option String
  headers : List (String × String)
deriving DecidableEq, Repr

/-- Outcome of running a piece of Go code that can return normally,
return an error, or crash with a runtime panic. -/
inductive POutcome (α : Type)
  | ok (a : α)
  | err (e : String)
  | panicked
deriving DecidableEq, Repr

/-- Credential attachment shared by the request builders: session cookies
when a session is stored, basic auth only when the username is
non-empty. -/
def attachAuth (c : Client) (hs : List (String × String)) : List (String × String) :=
  match c.auth.authType with
  | .sessionAuth =>
    match c.session with
    | some cookies => cookies.foldl addCookie1 hs
    | none => hs
  | .basicAuth =>
    if c.auth.username == "" then hs
    else hSet hs "Authorization" (basicAuthHeaderValue c.auth.username c.auth.password)
  | .noAuth => hs

/-- Embedding of Client.NewRequestWithContext.  The client pointer is an
Option: the generic dispatcher calls this method on the nil client an
unrecognized handle resolves to, and the dereference of the base URL then
panics — after url.Parse has already had its chance to fail. -/
def NewRequestWithContext (c? : Option Client) (method urlStr : String)
    (body : Option OPValue) : POutcome Request :=
  if !(urlValid urlStr) then .err "net/url: invalid control character in URL"
  else
    let rel := trimLeftSlashes urlStr
    match c? with
    | none => .panicked
    | some c =>
      let u := resolveReference c.baseURL rel
      let req : Request :=
        { method := method, url := u, rawQuery := "", body := body,
          headers := hSet [] "Content-Type" "application/json" }
      .ok { req with headers := attachAuth c req.headers }

/-- Embedding of Client.NewRawRequestWithContext, identical to the JSON
variant except that the body is a raw reader. -/
def NewRawRequestWithContext (c? : Option Client) (method urlStr : String)
    (body : Option String) : POutcome RawRequest :=
  if !(urlValid urlStr) then .err "net/url: invalid control character in URL"
  else
    let rel := trimLeftSlashes urlStr
    match c? with
    | none => .panicked
    | some c =>
      let u := resolveReference c.baseURL rel
      let req : RawRequest :=
        { method := method, url := u, body := body,
          headers := hSet [] "Content-Type" "application/json" }
      .ok { req with headers := attachAuth c req.headers }

/-- Body of an HTTP response: reading it can fail. -/
inductive BodyRead
  | readError (e : String)
  | bytes (s : String)
deriving DecidableEq, Repr

/-- A transport-level HTTP response. -/
structure GoHttpResp where
  status : Nat
  body : BodyRead
deriving DecidableEq, Repr

/-- The outward response wrapper with its four pagination fields. -/
structure Response where
  raw : GoHttpResp
  total : Int
  count : Int
  pageSize : Int
  offset : Int
deriving DecidableEq, Repr

/-- Embedding of CheckResponse: no error exactly on a 200-range status,
otherwise a status error naming the code, the body left for the
caller. -/
def CheckResponse (r : GoHttpResp) : Option String :=
  if 200 ≤ r.status && r.status ≤ 299 then none
  else
    some ("request failed. Please analyze the request body for more details. Status code: "
      ++ toString r.status)

/-- The decode target Client.Do receives: a single object of a kind or a
list envelope. -/
inductive DecodeTarget
  | objT (k : ServiceKind)
  | listT (lk : ListKind)
deriving DecidableEq, Repr

/-- A decoded response value with its dynamic shape: a single resource
object, or a list envelope carrying the four pagination fields. -/
inductive Decoded
  | objD (k : ServiceKind) (data : String)
  | listD (lk : ListKind) (total : Int) (count : Int) (pageSize : Int) (offset : Int)
      (elements : String)
deriving DecidableEq, Repr

/-- Embedding of Response.populatePageValues: a type switch over exactly
the three search-result shapes the source lists; every other decoded
value leaves the pagination fields untouched. -/
def populatePageValues (resp : Response) (v : Option Decoded) : Response :=
  match v with
  | some (.listD .searchResultWP t c p o _) =>
    { resp with total := t, count := c, pageSize := p, offset := o }
  | some (.listD .searchResultUser t c p o _) =>
    { resp with total := t, count := c, pageSize := p, offset := o }
  | some (.listD .searchResultQuery t c p o _) =>
    { resp with total := t, count := c, pageSize := p, offset := o }
  | _ => resp

/-- Embedding of newResponse: wrap the raw response with zeroed
pagination fields, then populate them from the decoded value. -/
def newResponse (r : GoHttpResp) (v : Option Decoded) : Response :=
  populatePageValues ⟨r, 0, 0, 0, 0⟩ v

/-- Embedding of Client.Do.  The HTTP transport and the JSON decoder are
external collaborators passed as functions.  Returns the outward
response, the decoded value, and the error, exactly one decode being
attempted and only when a target is supplied and the status check
passed. -/
def clientDo (httpDo : Request → Except String GoHttpResp)
    (decode : String → DecodeTarget → Option Decoded)
    (req : Request) (v : Option DecodeTarget) :
    Option Response × Option Decoded × Option String :=
  match httpDo req with
  | .error e => (none, none, some e)
  | .ok hr =>
    match CheckResponse hr with
    | some e => (some (newResponse hr none), none, some e)
    | none =>
      match v with
      | none => (some (newResponse hr none), none, none)
      | some target =>
        match hr.body with
        | .readError e => (some (newResponse hr none), none, some e)
        | .bytes data =>
          match decode data target with
          | none => (some (newResponse hr none), none, some "json: cannot unmarshal")
          | some d => (some (newResponse hr (some d)), some d, none)

/-- Modelled from the spec: the repository's error constructor lives in a
source file not provided; the propagation policy of the specification is
that errors reach the caller unswallowed, so the model passes the message
through. -/
def NewOpenProjectError (_resp : Option Response) (e : String) : String := e

/-- Embedding of the generic GetWithContext: resolve the handle, trim the
endpoint, refuse a nil client with the dispatch error, otherwise build
and issue a GET decoding into the kind's object.  The second component
lists the requests handed to the HTTP transport. -/
def GetWithContext (httpDo : Request → Except String GoHttpResp)
    (decode : String → DecodeTarget → Option Decoded)
    (objService : Handle) (apiEndPoint : String) :
    POutcome (Option Decoded × Option Response × Option String) × List Request :=
  let co := getObjectAndClient objService
  let ep := trimRightSlashes apiEndPoint
  match co with
  | none => (.ok (none, none, some "Null client, object not identified"), [])
  | some (c, k) =>
    match NewRequestWithContext (some c) "GET" ep none with
    | .panicked => (.panicked, [])
    | .err e => (.ok (none, none, some e), [])
    | .ok req =>
      match clientDo httpDo decode req (some (.objT k)) with
      | (resp?, _, some e) => (.ok (none, resp?, some (NewOpenProjectError resp? e)), [req])
      | (resp?, dec?, none) => (.ok (dec?, resp?, none), [req])

/-- URL-encoding of url.Values.Encode: keys sorted, each pair escaped. -/
def encodeValues (vs : List (String × String)) : String :=
  String.intercalate "&"
    ((List.insertionSort (fun a b : String × String => strLe a.1 b.1) vs).map
      (fun kv => queryEscape kv.1 ++ "=" ++ queryEscape kv.2))

/-- Embedding of the generic GetListWithContext.  Unlike GetWithContext
there is no nil-client check: an unrecognized handle reaches the method
call on the nil client and panics once the endpoint has parsed. -/
def GetListWithContext (httpDo : Request → Except String GoHttpResp)
    (decode : String → DecodeTarget → Option Decoded)
    (objService : Handle) (apiEndPoint : String) (options : Option FilterOptions) :
    POutcome (Option Decoded × Option Response × Option String) × List Request :=
  let (client?, lk?) := getObjectListAndClient objService
  let ep := trimRightSlashes apiEndPoint
  match NewRequestWithContext client? "GET" ep none with
  | .panicked => (.panicked, [])
  | .err e => (.ok (none, none, some e), [])
  | .ok req0 =>
    let req :=
      match options with
      | some fops => { req0 with rawQuery := encodeValues (prepareFilters fops) }
      | none => req0
    match clientDo httpDo decode req (lk?.map .listT) with
    | (resp?, _, some e) => (.ok (none, resp?, some (NewOpenProjectError resp? e)), [req])
    | (resp?, dec?, none) => (.ok (dec?, resp?, none), [req])

/-- Embedding of the generic CreateWithContext: no nil-client check, the
POST body is the freshly zero-initialized object of the handle's kind,
Client.Do is called with no decode target, and the response body is then
read and unmarshalled separately (the unmarshal parameter being the
encoding/json library boundary); read or parse failures return an error
together with the response. -/
def CreateWithContext (httpDo : Request → Except String GoHttpResp)
    (decode : String → DecodeTarget → Option Decoded)
    (unmarshal : String → ServiceKind → Option Decoded)
    (objService : Handle) (apiEndPoint : String) :
    POutcome (Option Decoded × Option Response × Option String) × List Request :=
  match getObjectAndClient objService with
  | none =>
    match NewRequestWithContext none "POST" apiEndPoint none with
    | .err e => (.ok (none, none, some e), [])
    | _ => (.panicked, [])
  | some (c, k) =>
    match NewRequestWithContext (some c) "POST" apiEndPoint (some (.zero k)) with
    | .panicked => (.panicked, [])
    | .err e => (.ok (none, none, some e), [])
    | .ok req =>
      match clientDo httpDo decode req none with
      | (resp?, _, some e) => (.ok (none, resp?, some e), [req])
      | (none, _, none) => (.panicked, [req])
      | (some resp, _, none) =>
        match resp.raw.body with
        | .readError _ => (.ok (none, some resp, some "could not read the returned data"), [req])
        | .bytes data =>
          match unmarshal data k with
          | none => (.ok (none, some resp, some "could not unmarshall the data into struct"), [req])
          | some d => (.ok (some d, some resp, none), [req])

/-- Embedding of the generic DeleteWithContext: no nil-client check and
no decode target. -/
def DeleteWithContext (httpDo : Request → Except String GoHttpResp)
    (decode : String → DecodeTarget → Option Decoded)
    (objService : Handle) (apiEndPoint : String) :
    POutcome (Option Response × Option String) × List Request :=
  match getObjectAndClient objService with
  | none =>
    match NewRequestWithContext none "DELETE" (trimRightSlashes apiEndPoint) none with
    | .err e => (.ok (none, some e), [])
    | _ => (.panicked, [])
  | some (c, _) =>
    match NewRequestWithContext (some c) "DELETE" (trimRightSlashes apiEndPoint) none with
    | .panicked => (.panicked, [])
    | .err e => (.ok (none, some e), [])
    | .ok req =>
      match clientDo httpDo decode req none with
      | (resp?, _, err?) => (.ok (resp?, err?), [req])

/-- Embedding of WorkPackageService.Create: the caller-supplied work
package is accepted and then never used — only the project name reaches
the generic create. -/
def WorkPackageServiceCreate (httpDo : Request → Except String GoHttpResp)
    (decode : String → DecodeTarget → Option Decoded)
    (unmarshal : String → ServiceKind → Option Decoded)
    (c : Client) (_workPackage : OPValue) (projectName : String) :
    POutcome (Option Decoded × Option Response × Option String) × List Request :=
  CreateWithContext httpDo decode unmarshal (.svc .workPackage c)
    ("api/v3/projects/" ++ projectName ++ "/work_packages")

/-! ## Theorems -/

/-- C5: evaluation of the operator mapping at the inputs where the source
deviates from its documented table: SearchString, Like, GreaterOrEqual and
LowerOrEqual all fall through the incomplete switch to the default "="
instead of the documented symbols, while the four handled operators and
the claim's example filter spec serialize as documented. -/
theorem c5_operator_mapping_eval :
    interpretOperator .Equal = "=" ∧ interpretOperator .Different = "<>" ∧
    interpretOperator .GreaterThan = ">" ∧ interpretOperator .LowerThan = "<" ∧
    interpretOperator .SearchString = "=" ∧ interpretOperator .Like = "=" ∧
    interpretOperator .GreaterOrEqual = "=" ∧ interpretOperator .LowerOrEqual = "=" ∧
    prepareFilters ⟨[⟨"status", .Equal, "open"⟩]⟩ =
      [("filters", "[\x7b\"status\":\x7b\"operator\":\"=\",\"values\":[\"open\"]\x7d\x7d]")] := by
  decide

/-- C9: decoding one of the three known paginated envelope shapes copies
its four pagination fields into the outward response exactly; decoding a
single-resource shape, or nothing, leaves all four at zero. -/
theorem c9_pagination_extraction (r : GoHttpResp) (t c p o : Int)
    (elems data : String) (k : ServiceKind) :
    newResponse r (some (.listD .searchResultWP t c p o elems)) = ⟨r, t, c, p, o⟩ ∧
    newResponse r (some (.listD .searchResultUser t c p o elems)) = ⟨r, t, c, p, o⟩ ∧
    newResponse r (some (.listD .searchResultQuery t c p o elems)) = ⟨r, t, c, p, o⟩ ∧
    newResponse r (some (.objD k data)) = ⟨r, 0, 0, 0, 0⟩ ∧
    newResponse r none = ⟨r, 0, 0, 0, 0⟩ :=
  ⟨rfl, rfl, rfl, rfl, rfl⟩

/-- C4 counterexample: a login exchange answering status 401 with no
cookies is not reported as an error — the cookie round trip proceeds, the
empty cookie slice is cached as the session, and the outgoing request is
produced; this refutes the claim that a non-2xx login status fails with
an auth error. -/
theorem c4_counterexample_non2xx_login_accepted :
    (CookieAuthTransport.roundTripPrep (fun _ => .ok ⟨401, []⟩)
        ⟨"u", "p", "https://srv/login", none⟩ ⟨1, fun _ => []⟩ ⟨"GET", "p", [], 0⟩).2.2.1 =
      .ok ⟨"GET", "p", [], 1⟩ ∧
    (CookieAuthTransport.roundTripPrep (fun _ => .ok ⟨401, []⟩)
        ⟨"u", "p", "https://srv/login", none⟩ ⟨1, fun _ => []⟩ ⟨"GET", "p", [], 0⟩).1.sessionObject =
      some [] :=
  ⟨rfl, rfl⟩

/-- C2 counterexample: the same multiset of query parameters supplied in
the two possible orders yields different canonical strings when a key
repeats, because the values of one key are concatenated in supplied order
into a single component before sorting. -/
theorem c2_counterexample_duplicate_keys :
    canonicalizeRequest "get" "x" [("a", "1"), ("a", "2")] = "GET&/x&a=12" ∧
    canonicalizeRequest "get" "x" [("a", "2"), ("a", "1")] = "GET&/x&a=21" ∧
    ¬(canonicalizeRequest "get" "x" [("a", "1"), ("a", "2")] =
        canonicalizeRequest "get" "x" [("a", "2"), ("a", "1")]) := by
  refine ⟨?_, ?_, ?_⟩ <;> decide

/-- C7: CheckResponse succeeds exactly on statuses 200 through 299, and on
any other status Client.Do hands back the status error together with the
outward response wrapping the raw transport response, its body neither
decoded nor consumed. -/
theorem c7_status_error_with_response (httpDo : Request → Except String GoHttpResp)
    (decode : String → DecodeTarget → Option Decoded)
    (req : Request) (v : Option DecodeTarget) (hr : GoHttpResp) :
    (CheckResponse hr = none ↔ (200 ≤ hr.status ∧ hr.status ≤ 299)) ∧
    (httpDo req = .ok hr → ¬(200 ≤ hr.status ∧ hr.status ≤ 299) →
      clientDo httpDo decode req v =
        (some ⟨hr, 0, 0, 0, 0⟩, none,
          some ("request failed. Please analyze the request body for more details. Status code: "
            ++ toString hr.status))) := by
  constructor
  · unfold CheckResponse
    split_ifs with hcond <;> simp only [Bool.and_eq_true, decide_eq_true_eq] at hcond <;>
      simp [hcond]
  · intro hok hbad
    have hfalse : (decide (200 ≤ hr.status) && decide (hr.status ≤ 299)) = false := by
      by_contra hcon
      rw [Bool.not_eq_false, Bool.and_eq_true, decide_eq_true_eq, decide_eq_true_eq] at hcon
      exact hbad hcon
    simp [clientDo, hok, CheckResponse, hfalse, newResponse, populatePageValues]

/-- Witness for C7 at a 404 response. -/
theorem c7_witness :
    ((fun _ => .ok ⟨404, .bytes "diagnostic"⟩ :
        Request → Except String GoHttpResp) ⟨"GET", "u", "", none, []⟩ =
      .ok ⟨404, .bytes "diagnostic"⟩) ∧
    ¬(200 ≤ 404 ∧ 404 ≤ 299) ∧
    clientDo (fun _ => .ok ⟨404, .bytes "diagnostic"⟩) (fun _ _ => none)
        ⟨"GET", "u", "", none, []⟩ none =
      (some ⟨⟨404, .bytes "diagnostic"⟩, 0, 0, 0, 0⟩, none,
        some ("request failed. Please analyze the request body for more details. Status code: "
          ++ toString 404)) :=
  ⟨rfl, by decide,
    (c7_status_error_with_response (fun _ => .ok ⟨404, .bytes "diagnostic"⟩) (fun _ _ => none)
      ⟨"GET", "u", "", none, []⟩ none ⟨404, .bytes "diagnostic"⟩).2 rfl (by decide)⟩

/-- C10: under basic authentication with an empty stored username both
request builders return a request carrying only the content-type header —
no Authorization header and no error; with a non-empty username the basic
credentials are attached. -/
theorem c10_basic_auth_empty_username (c : Client) (method urlStr : String)
    (body : Option OPValue) (rawBody : Option String)
    (hb : c.auth.authType = .basicAuth) (hu : urlValid urlStr = true) :
    (c.auth.username = "" →
      NewRequestWithContext (some c) method urlStr body =
        .ok ⟨method, resolveReference c.baseURL (trimLeftSlashes urlStr), "", body,
          [("Content-Type", "application/json")]⟩ ∧
      NewRawRequestWithContext (some c) method urlStr rawBody =
        .ok ⟨method, resolveReference c.baseURL (trimLeftSlashes urlStr), rawBody,
          [("Content-Type", "application/json")]⟩) ∧
    (c.auth.username ≠ "" →
      NewRequestWithContext (some c) method urlStr body =
        .ok ⟨method, resolveReference c.baseURL (trimLeftSlashes urlStr), "", body,
          [("Content-Type", "application/json"),
            ("Authorization", basicAuthHeaderValue c.auth.username c.auth.password)]⟩) := by
  constructor
  · intro he
    constructor <;>
      simp [NewRequestWithContext, NewRawRequestWithContext, attachAuth, hu, hb, he, hSet]
  · intro hne
    have hbe : (c.auth.username == "") = false := beq_eq_false_iff_ne.mpr hne
    simp [NewRequestWithContext, attachAuth, hu, hb, hbe, hSet]

/-- Witness for C10 at a concrete basic-auth client with empty username. -/
theorem c10_witness :
    (⟨"https://srv/", ⟨.basicAuth, "", "secret"⟩, none⟩ : Client).auth.authType = .basicAuth ∧
    urlValid "api/v3/users" = true ∧
    NewRequestWithContext (some ⟨"https://srv/", ⟨.basicAuth, "", "secret"⟩, none⟩)
        "GET" "api/v3/users" none =
      .ok ⟨"GET", resolveReference "https://srv/" (trimLeftSlashes "api/v3/users"), "", none,
        [("Content-Type", "application/json")]⟩ :=
  ⟨rfl, by decide,
    ((c10_basic_auth_empty_username ⟨"https://srv/", ⟨.basicAuth, "", "secret"⟩, none⟩
      "GET" "api/v3/users" none none rfl (by decide)).1 rfl).1⟩

/-- Trimming trailing slashes preserves the absence of control
characters. -/
theorem urlValid_trimRightSlashes (s : String) (h : urlValid s = true) :
    urlValid (trimRightSlashes s) = true := by
  unfold urlValid at *
  rw [List.all_eq_true] at h ⊢
  intro c hc
  have hc2 : c ∈ List.dropWhile (fun x => x == '/') s.data.reverse := by
    simpa [trimRightSlashes] using hc
  have hc3 : c ∈ s.data.reverse := List.Sublist.mem hc2 (List.dropWhile_sublist _)
  exact h c (List.mem_reverse.mp hc3)

/-- C1: dispatch with an unrecognized handle.  The generic Get refuses
the nil client with the dispatch error and issues no request; GetList,
Create and Delete have no nil-client check, reach the request-builder
method on the nil client once the endpoint has parsed, and crash with a
nil-pointer panic, likewise issuing no request. -/
theorem c1_unrecognized_handle_dispatch (httpDo : Request → Except String GoHttpResp)
    (decode : String → DecodeTarget → Option Decoded)
    (unmarshal : String → ServiceKind → Option Decoded)
    (name apiEndPoint : String) (options : Option FilterOptions)
    (hep : urlValid apiEndPoint = true) :
    GetWithContext httpDo decode (.other name) apiEndPoint =
      (.ok (none, none, some "Null client, object not identified"), []) ∧
    GetListWithContext httpDo decode (.other name) apiEndPoint options = (.panicked, []) ∧
    CreateWithContext httpDo decode unmarshal (.other name) apiEndPoint = (.panicked, []) ∧
    DeleteWithContext httpDo decode (.other name) apiEndPoint = (.panicked, []) := by
  have htrim := urlValid_trimRightSlashes apiEndPoint hep
  refine ⟨rfl, ?_, ?_, ?_⟩
  · simp [GetListWithContext, getObjectListAndClient, NewRequestWithContext, htrim]
  · simp [CreateWithContext, getObjectAndClient, NewRequestWithContext, hep]
  · simp [DeleteWithContext, getObjectAndClient, NewRequestWithContext, htrim]

/-- Witness for C1 at a concrete unrecognized handle and endpoint. -/
theorem c1_witness :
    urlValid "api/v3/work_packages" = true ∧
    GetWithContext (fun _ => .error "no network") (fun _ _ => none)
        (.other "AuthenticationService") "api/v3/work_packages" =
      (.ok (none, none, some "Null client, object not identified"), []) ∧
    GetListWithContext (fun _ => .error "no network") (fun _ _ => none)
        (.other "AuthenticationService") "api/v3/work_packages" none = (.panicked, []) :=
  ⟨by decide,
    (c1_unrecognized_handle_dispatch (fun _ => .error "no network") (fun _ _ => none)
      (fun _ _ => none) "AuthenticationService" "api/v3/work_packages" none (by decide)).1,
    (c1_unrecognized_handle_dispatch (fun _ => .error "no network") (fun _ _ => none)
      (fun _ _ => none) "AuthenticationService" "api/v3/work_packages" none (by decide)).2.1⟩

/-- Parsing inverts rendering for one decimal digit. -/
theorem parseDigit_digitChar : ∀ d < 10, parseDigit (digitChar d) = some d := by decide

/-- Recomposing a number below ten thousand from its four decimal digits. -/
theorem digits4_recompose (n : Nat) (h : n < 10000) :
    1000 * (n / 1000 % 10) + 100 * (n / 100 % 10) + 10 * (n / 10 % 10) + n % 10 = n := by
  omega

/-- Recomposing a number below one hundred from its two decimal digits. -/
theorem digits2_recompose (n : Nat) (h : n < 100) :
    10 * (n / 10 % 10) + n % 10 = n := by
  omega

/-- Parsing the rendered quoted timestamp restores its fields. -/
theorem parseQuotedTime_marshal (t : OPTime)
    (ht : checkTime t.year t.month t.day t.hour t.minute t.second = true) :
    parseQuotedTime (timeMarshalChars t) = some t := by
  have e1 := parseDigit_digitChar (t.year / 1000 % 10) (Nat.mod_lt _ (by norm_num))
  have e2 := parseDigit_digitChar (t.year / 100 % 10) (Nat.mod_lt _ (by norm_num))
  have e3 := parseDigit_digitChar (t.year / 10 % 10) (Nat.mod_lt _ (by norm_num))
  have e4 := parseDigit_digitChar (t.year % 10) (Nat.mod_lt _ (by norm_num))
  have e5 := parseDigit_digitChar (t.month / 10 % 10) (Nat.mod_lt _ (by norm_num))
  have e6 := parseDigit_digitChar (t.month % 10) (Nat.mod_lt _ (by norm_num))
  have e7 := parseDigit_digitChar (t.day / 10 % 10) (Nat.mod_lt _ (by norm_num))
  have e8 := parseDigit_digitChar (t.day % 10) (Nat.mod_lt _ (by norm_num))
  have e9 := parseDigit_digitChar (t.hour / 10 % 10) (Nat.mod_lt _ (by norm_num))
  have e10 := parseDigit_digitChar (t.hour % 10) (Nat.mod_lt _ (by norm_num))
  have e11 := parseDigit_digitChar (t.minute / 10 % 10) (Nat.mod_lt _ (by norm_num))
  have e12 := parseDigit_digitChar (t.minute % 10) (Nat.mod_lt _ (by norm_num))
  have e13 := parseDigit_digitChar (t.second / 10 % 10) (Nat.mod_lt _ (by norm_num))
  have e14 := parseDigit_digitChar (t.second % 10) (Nat.mod_lt _ (by norm_num))
  have htb := ht
  simp only [checkTime, Bool.and_eq_true, decide_eq_true_eq] at htb
  have hdm : daysInMonth t.year t.month ≤ 31 := by
    unfold daysInMonth
    split_ifs <;> omega
  have hy := digits4_recompose t.year (by omega)
  have hmo := digits2_recompose t.month (by omega)
  have hd := digits2_recompose t.day (by omega)
  have hh := digits2_recompose t.hour (by omega)
  have hmi := digits2_recompose t.minute (by omega)
  have hs := digits2_recompose t.second (by omega)
  simp only [timeMarshalChars, pad4Chars, pad2Chars, List.cons_append, List.nil_append,
    parseQuotedTime, e1, e2, e3, e4, e5, e6, e7, e8, e9, e10, e11, e12, e13, e14]
  simp only [hy, hmo, hd, hh, hmi, hs, ht, if_true]

/-- Parsing the rendered quoted date restores its fields. -/
theorem parseQuotedDate_marshal (d : OPDate)
    (hd : checkDate d.year d.month d.day = true) :
    parseQuotedDate (dateMarshalChars d) = some d := by
  have e1 := parseDigit_digitChar (d.year / 1000 % 10) (Nat.mod_lt _ (by norm_num))
  have e2 := parseDigit_digitChar (d.year / 100 % 10) (Nat.mod_lt _ (by norm_num))
  have e3 := parseDigit_digitChar (d.year / 10 % 10) (Nat.mod_lt _ (by norm_num))
  have e4 := parseDigit_digitChar (d.year % 10) (Nat.mod_lt _ (by norm_num))
  have e5 := parseDigit_digitChar (d.month / 10 % 10) (Nat.mod_lt _ (by norm_num))
  have e6 := parseDigit_digitChar (d.month % 10) (Nat.mod_lt _ (by norm_num))
  have e7 := parseDigit_digitChar (d.day / 10 % 10) (Nat.mod_lt _ (by norm_num))
  have e8 := parseDigit_digitChar (d.day % 10) (Nat.mod_lt _ (by norm_num))
  have hdb := hd
  simp only [checkDate, Bool.and_eq_true, decide_eq_true_eq] at hdb
  have hdm : daysInMonth d.year d.month ≤ 31 := by
    unfold daysInMonth
    split_ifs <;> omega
  have hy := digits4_recompose d.year (by omega)
  have hmo := digits2_recompose d.month (by omega)
  have hdd := digits2_recompose d.day (by omega)
  simp only [dateMarshalChars, pad4Chars, pad2Chars, List.cons_append, List.nil_append,
    parseQuotedDate, e1, e2, e3, e4, e5, e6, e7, e8]
  simp only [hy, hmo, hdd, hd, if_true]

/-- C8: marshalling a valid timestamp and unmarshalling the result
restores the same instant; likewise for a valid calendar date; and
unmarshalling a literal null leaves either receiver unchanged — in
particular at its zero value — with no error. -/
theorem c8_datetime_roundtrip (t : OPTime) (d : OPDate) (cur : OPTime) (curd : OPDate)
    (ht : checkTime t.year t.month t.day t.hour t.minute t.second = true)
    (hd : checkDate d.year d.month d.day = true) :
    timeUnmarshalJSON (timeMarshalJSON t) cur = .ok t ∧
    dateUnmarshalJSON (dateMarshalJSON d) curd = .ok d ∧
    timeUnmarshalJSON "null" cur = .ok cur ∧
    dateUnmarshalJSON "null" curd = .ok curd := by
  have hne : (timeMarshalJSON t == "null") = false := by
    rw [beq_eq_false_iff_ne]
    intro hcon
    have := congrArg (fun s => s.data.length) hcon
    simp [timeMarshalJSON, timeMarshalChars, pad4Chars, pad2Chars] at this
  have hned : (dateMarshalJSON d == "null") = false := by
    rw [beq_eq_false_iff_ne]
    intro hcon
    have := congrArg (fun s => s.data.length) hcon
    simp [dateMarshalJSON, dateMarshalChars, pad4Chars, pad2Chars] at this
  refine ⟨?_, ?_, by simp [timeUnmarshalJSON], by simp [dateUnmarshalJSON]⟩
  · rw [timeUnmarshalJSON, hne]
    simp only [Bool.false_eq_true, if_false]
    have hpt : parseQuotedTime (timeMarshalJSON t).data = some t :=
      parseQuotedTime_marshal t ht
    rw [hpt]
  · rw [dateUnmarshalJSON, hned]
    simp only [Bool.false_eq_true, if_false]
    have hpd : parseQuotedDate (dateMarshalJSON d).data = some d :=
      parseQuotedDate_marshal d hd
    rw [hpd]

/-- Witness for C8 at a concrete timestamp and date. -/
theorem c8_witness :
    checkTime 2021 3 9 14 5 59 = true ∧ checkDate 2021 3 9 = true ∧
    timeUnmarshalJSON (timeMarshalJSON ⟨2021, 3, 9, 14, 5, 59⟩) ⟨0, 0, 0, 0, 0, 0⟩ =
      .ok ⟨2021, 3, 9, 14, 5, 59⟩ ∧
    timeUnmarshalJSON "null" ⟨0, 0, 0, 0, 0, 0⟩ = .ok ⟨0, 0, 0, 0, 0, 0⟩ :=
  ⟨by decide, by decide,
    (c8_datetime_roundtrip ⟨2021, 3, 9, 14, 5, 59⟩ ⟨2021, 3, 9⟩ ⟨0, 0, 0, 0, 0, 0⟩ ⟨0, 0, 0⟩
      (by decide) (by decide)).1,
    (c8_datetime_roundtrip ⟨2021, 3, 9, 14, 5, 59⟩ ⟨2021, 3, 9⟩ ⟨0, 0, 0, 0, 0, 0⟩ ⟨0, 0, 0⟩
      (by decide) (by decide)).2.2.1⟩

/-- C3: none of the three authentication transports mutates the input
request: each clones it, the clone's header map lives at a fresh address
distinct from the original's (un-aliased), the original's header map
contents are unchanged after the call, the other request fields are
shallow-copied, and the outgoing header map is the deep copy of the
original's with only the credentials applied. -/
theorem c3_attach_does_not_mutate (bt : BasicAuthTransport) (jt : JWTAuthTransport)
    (ct : CookieAuthTransport) (hashHex : String → String)
    (sign : String → JWTClaims → String) (now : Nat)
    (loginDo : LoginRequest → Except String LoginResponse)
    (h : Heap) (r : HRequest) (href : r.headerRef < h.next) :
    ((bt.roundTripPrep h r).1.store r.headerRef = h.store r.headerRef ∧
      (bt.roundTripPrep h r).2.headerRef ≠ r.headerRef ∧
      (bt.roundTripPrep h r).2.method = r.method ∧
      (bt.roundTripPrep h r).2.path = r.path ∧
      (bt.roundTripPrep h r).2.query = r.query ∧
      (bt.roundTripPrep h r).1.store (bt.roundTripPrep h r).2.headerRef =
        headerSet (h.store r.headerRef) "Authorization"
          (basicAuthHeaderValue bt.username bt.password)) ∧
    ((jt.roundTripPrep hashHex sign now h r).1.store r.headerRef = h.store r.headerRef ∧
      (jt.roundTripPrep hashHex sign now h r).2.headerRef ≠ r.headerRef ∧
      (jt.roundTripPrep hashHex sign now h r).2.method = r.method ∧
      (jt.roundTripPrep hashHex sign now h r).2.path = r.path ∧
      (jt.roundTripPrep hashHex sign now h r).2.query = r.query) ∧
    ((ct.roundTripPrep loginDo h r).2.1.store r.headerRef = h.store r.headerRef ∧
      (∀ r2, (ct.roundTripPrep loginDo h r).2.2.1 = .ok r2 →
        r2.headerRef ≠ r.headerRef ∧ r2.method = r.method ∧ r2.path = r.path ∧
          r2.query = r.query)) := by
  have hne : r.headerRef ≠ h.next := Nat.ne_of_lt href
  have hbe : (r.headerRef == h.next) = false := beq_eq_false_iff_ne.mpr hne
  refine ⟨?_, ?_, ?_⟩
  · simp [BasicAuthTransport.roundTripPrep, cloneRequest, Heap.alloc, Heap.write, hbe,
      hne, Ne.symm hne]
  · simp [JWTAuthTransport.roundTripPrep, cloneRequest, Heap.alloc, Heap.write, hbe,
      hne, Ne.symm hne]
  · cases hso : ct.sessionObject with
    | none =>
      cases hl : CookieAuthTransport.setSessionObject loginDo ct with
      | error e =>
        refine ⟨?_, ?_⟩
        · simp [CookieAuthTransport.roundTripPrep, hso, hl]
        · intro r2 hr2
          simp [CookieAuthTransport.roundTripPrep, hso, hl] at hr2
      | ok t1 =>
        refine ⟨?_, ?_⟩
        · simp [CookieAuthTransport.roundTripPrep, hso, hl, cookieAttach, cloneRequest,
            Heap.alloc, Heap.write, hbe, hne]
        · intro r2 hr2
          simp [CookieAuthTransport.roundTripPrep, hso, hl, cookieAttach, cloneRequest,
            Heap.alloc, Heap.write] at hr2
          subst hr2
          exact ⟨Ne.symm hne, rfl, rfl, rfl⟩
    | some s =>
      refine ⟨?_, ?_⟩
      · simp [CookieAuthTransport.roundTripPrep, hso, cookieAttach, cloneRequest,
          Heap.alloc, Heap.write, hbe, hne]
      · intro r2 hr2
        simp [CookieAuthTransport.roundTripPrep, hso, cookieAttach, cloneRequest,
          Heap.alloc, Heap.write] at hr2
        subst hr2
        exact ⟨Ne.symm hne, rfl, rfl, rfl⟩

/-- Witness for C3 at concrete transports, heap and request. -/
theorem c3_witness :
    (0 : Nat) < 1 ∧
    ((BasicAuthTransport.roundTripPrep ⟨"user", "pw"⟩ ⟨1, fun _ => []⟩
      ⟨"GET", "path", [], 0⟩).1.store 0 = (fun _ => ([] : HeaderMap)) 0) ∧
    (BasicAuthTransport.roundTripPrep ⟨"user", "pw"⟩ ⟨1, fun _ => []⟩
      ⟨"GET", "path", [], 0⟩).2.headerRef ≠ 0 :=
  ⟨by decide,
    (c3_attach_does_not_mutate ⟨"user", "pw"⟩ ⟨"sec", "iss"⟩ ⟨"u", "p", "a", none⟩
      (fun s => s) (fun _ _ => "tok") 0 (fun _ => .error "down")
      ⟨1, fun _ => []⟩ ⟨"GET", "path", [], 0⟩ (by decide)).1.1,
    (c3_attach_does_not_mutate ⟨"user", "pw"⟩ ⟨"sec", "iss"⟩ ⟨"u", "p", "a", none⟩
      (fun s => s) (fun _ _ => "tok") 0 (fun _ => .error "down")
      ⟨1, fun _ => []⟩ ⟨"GET", "path", [], 0⟩ (by decide)).1.2.1⟩

/-- Folding the conditional cookie attachment equals folding the plain
attachment over the cookies with non-empty value. -/
theorem foldl_addCookie_eq_filter (cs : List Cookie) (init : HeaderMap) :
    cs.foldl (fun hs c => if c.value == "" then hs else addCookie hs c) init =
      (cs.filter (fun c => !(c.value == ""))).foldl addCookie init := by
  induction cs generalizing init with
  | nil => rfl
  | cons c rest ih =>
    rw [List.foldl_cons, List.filter_cons]
    cases hc : (c.value == "") with
    | true =>
      rw [if_pos rfl, if_neg (by simp)]
      exact ih init
    | false =>
      rw [if_neg (by simp), if_pos (show (!false) = true from rfl), List.foldl_cons]
      exact ih (addCookie init c)

/-- Variant of the fold equation with the propositional condition simp
produces. -/
theorem foldl_addCookie_eq_filter2 (cs : List Cookie) (init : HeaderMap) :
    cs.foldl (fun hs c => if c.value = "" then hs else addCookie hs c) init =
      (cs.filter (fun c => !(c.value == ""))).foldl addCookie init := by
  have hfun : (fun (hs : HeaderMap) (c : Cookie) => if c.value = "" then hs else addCookie hs c)
      = (fun hs c => if c.value == "" then hs else addCookie hs c) := by
    funext hs c
    by_cases hv : c.value = "" <;> simp [hv]
  rw [hfun]
  exact foldl_addCookie_eq_filter cs init

/-- C4 (amended): the login request is a POST to the configured auth URL;
on a fresh transport the round trip performs exactly one login call,
fails with the wrapped auth error exactly when the login exchange fails
at the transport level (a response with any status, 2xx or not, is
accepted and its cookies cached), and then attaches exactly the cached
cookies with non-empty value; with a cached session it performs zero
login calls, leaves the session unchanged and attaches exactly the
cached cookies with non-empty value. -/
theorem c4_cookie_session_logins (loginDo : LoginRequest → Except String LoginResponse)
    (t : CookieAuthTransport) (h : Heap) (r : HRequest) (s : List Cookie) :
    (t.buildAuthRequest.method = "POST" ∧ t.buildAuthRequest.url = t.authURL) ∧
    (t.sessionObject = none →
      (∀ e, loginDo t.buildAuthRequest = .error e →
        t.roundTripPrep loginDo h r =
          (t, h, .error ("cookieauth: no session object has been set: " ++ e), 1)) ∧
      (∀ resp, loginDo t.buildAuthRequest = .ok resp →
        (t.roundTripPrep loginDo h r).1.sessionObject = some resp.cookies ∧
        (t.roundTripPrep loginDo h r).2.2.2 = 1 ∧
        ∃ r2, (t.roundTripPrep loginDo h r).2.2.1 = .ok r2 ∧
          (t.roundTripPrep loginDo h r).2.1.store r2.headerRef =
            (resp.cookies.filter (fun c => !(c.value == ""))).foldl addCookie
              (h.store r.headerRef))) ∧
    (t.sessionObject = some s →
      (t.roundTripPrep loginDo h r).2.2.2 = 0 ∧
      (t.roundTripPrep loginDo h r).1 = t ∧
      ∃ r2, (t.roundTripPrep loginDo h r).2.2.1 = .ok r2 ∧
        (t.roundTripPrep loginDo h r).2.1.store r2.headerRef =
          (s.filter (fun c => !(c.value == ""))).foldl addCookie (h.store r.headerRef)) := by
  refine ⟨⟨rfl, rfl⟩, ?_, ?_⟩
  · intro hso
    constructor
    · intro e he
      simp [CookieAuthTransport.roundTripPrep, hso, CookieAuthTransport.setSessionObject, he]
    · intro resp hresp
      refine ⟨?_, ?_, ?_⟩ <;>
        simp [CookieAuthTransport.roundTripPrep, hso, CookieAuthTransport.setSessionObject,
          hresp, cookieAttach, cloneRequest, Heap.alloc, Heap.write,
          foldl_addCookie_eq_filter, foldl_addCookie_eq_filter2]
  · intro hso
    refine ⟨?_, ?_, ?_⟩ <;>
      simp [CookieAuthTransport.roundTripPrep, hso, cookieAttach, cloneRequest,
        Heap.alloc, Heap.write, foldl_addCookie_eq_filter, foldl_addCookie_eq_filter2]

/-- Witness for C4: a fresh transport whose login succeeds with one
non-empty and one empty cookie caches the session and attaches only the
non-empty cookie. -/
theorem c4_witness :
    ((⟨"u", "p", "https://srv/login", none⟩ : CookieAuthTransport).sessionObject = none) ∧
    ((fun _ => .ok ⟨204, [⟨"sess", "abc"⟩, ⟨"empty", ""⟩]⟩ :
        LoginRequest → Except String LoginResponse)
      (CookieAuthTransport.buildAuthRequest ⟨"u", "p", "https://srv/login", none⟩) =
        .ok ⟨204, [⟨"sess", "abc"⟩, ⟨"empty", ""⟩]⟩) ∧
    (CookieAuthTransport.roundTripPrep (fun _ => .ok ⟨204, [⟨"sess", "abc"⟩, ⟨"empty", ""⟩]⟩)
      ⟨"u", "p", "https://srv/login", none⟩ ⟨1, fun _ => []⟩
      ⟨"GET", "path", [], 0⟩).1.sessionObject = some [⟨"sess", "abc"⟩, ⟨"empty", ""⟩] ∧
    (CookieAuthTransport.roundTripPrep (fun _ => .ok ⟨204, [⟨"sess", "abc"⟩, ⟨"empty", ""⟩]⟩)
      ⟨"u", "p", "https://srv/login", none⟩ ⟨1, fun _ => []⟩
      ⟨"GET", "path", [], 0⟩).2.2.2 = 1 :=
  ⟨rfl, rfl,
    ((c4_cookie_session_logins (fun _ => .ok ⟨204, [⟨"sess", "abc"⟩, ⟨"empty", ""⟩]⟩)
      ⟨"u", "p", "https://srv/login", none⟩ ⟨1, fun _ => []⟩ ⟨"GET", "path", [], 0⟩
      []).2.1 rfl).2 ⟨204, [⟨"sess", "abc"⟩, ⟨"empty", ""⟩]⟩ rfl |>.1,
    ((c4_cookie_session_logins (fun _ => .ok ⟨204, [⟨"sess", "abc"⟩, ⟨"empty", ""⟩]⟩)
      ⟨"u", "p", "https://srv/login", none⟩ ⟨1, fun _ => []⟩ ⟨"GET", "path", [], 0⟩
      []).2.1 rfl).2 ⟨204, [⟨"sess", "abc"⟩, ⟨"empty", ""⟩]⟩ rfl |>.2.1⟩

/-- C6: for a recognized handle and a parsing endpoint, Create issues
exactly one request — a POST whose body is the zero-initialized object
of the handle's kind, so the caller-populated payload is never
serialized by this layer; the outcome is independent of the shared
decode-on-response collaborator, the response being decoded instead by
the separate read-and-unmarshal step; when the body of a 2xx response
cannot be read or cannot be unmarshalled an error is returned together
with the transport-level response; on success the separately
unmarshalled object is returned; and WorkPackageService.Create ignores
the caller-supplied work package entirely. -/
theorem c6_create_zero_body_separate_decode
    (httpDo : Request → Except String GoHttpResp)
    (decode decode2 : String → DecodeTarget → Option Decoded)
    (unmarshal : String → ServiceKind → Option Decoded)
    (c : Client) (k : ServiceKind) (ep : String) (hep : urlValid ep = true) :
    ((CreateWithContext httpDo decode unmarshal (.svc k c) ep).2.map
        (fun req => (req.method, req.body)) = [("POST", some (OPValue.zero k))]) ∧
    (CreateWithContext httpDo decode2 unmarshal (.svc k c) ep =
      CreateWithContext httpDo decode unmarshal (.svc k c) ep) ∧
    (∀ req hr, req ∈ (CreateWithContext httpDo decode unmarshal (.svc k c) ep).2 →
      httpDo req = .ok hr → 200 ≤ hr.status → hr.status ≤ 299 →
      (∀ e, hr.body = .readError e →
        (CreateWithContext httpDo decode unmarshal (.svc k c) ep).1 =
          .ok (none, some (newResponse hr none), some "could not read the returned data")) ∧
      (∀ data, hr.body = .bytes data →
        (unmarshal data k = none →
          (CreateWithContext httpDo decode unmarshal (.svc k c) ep).1 =
            .ok (none, some (newResponse hr none),
              some "could not unmarshall the data into struct")) ∧
        (∀ d, unmarshal data k = some d →
          (CreateWithContext httpDo decode unmarshal (.svc k c) ep).1 =
            .ok (some d, some (newResponse hr none), none)))) ∧
    (∀ wp1 wp2 pn, WorkPackageServiceCreate httpDo decode unmarshal c wp1 pn =
      WorkPackageServiceCreate httpDo decode unmarshal c wp2 pn) := by
  have hreq : NewRequestWithContext (some c) "POST" ep (some (OPValue.zero k)) =
      .ok ⟨"POST", resolveReference c.baseURL (trimLeftSlashes ep), "",
        some (OPValue.zero k), attachAuth c (hSet [] "Content-Type" "application/json")⟩ := by
    simp [NewRequestWithContext, hep]
  set req0 : Request := ⟨"POST", resolveReference c.baseURL (trimLeftSlashes ep), "",
    some (OPValue.zero k), attachAuth c (hSet [] "Content-Type" "application/json")⟩ with hreq0
  have hlist : (CreateWithContext httpDo decode unmarshal (.svc k c) ep).2 = [req0] := by
    simp only [CreateWithContext, getObjectAndClient, hreq]
    rcases hcd : clientDo httpDo decode req0 none with ⟨resp?, dec?, err?⟩
    cases err? with
    | some e => cases resp? <;> rfl
    | none =>
      cases resp? with
      | none => rfl
      | some resp =>
        cases hb : resp.raw.body with
        | readError e => simp [hb]
        | bytes data => cases hum : unmarshal data k <;> simp [hb, hum]
  have hdi : clientDo httpDo decode2 req0 none = clientDo httpDo decode req0 none := by
    unfold clientDo
    cases httpDo req0 with
    | error e => rfl
    | ok hr => cases CheckResponse hr <;> rfl
  refine ⟨?_, ?_, ?_, fun wp1 wp2 pn => rfl⟩
  · rw [hlist]
    rfl
  · simp only [CreateWithContext, getObjectAndClient, hreq, hdi]
  · intro req hr hmem hok hs1 hs2
    rw [hlist, List.mem_singleton] at hmem
    subst hmem
    have hchk : CheckResponse hr = none := by
      simp [CheckResponse, hs1, hs2]
    have hcd : clientDo httpDo decode req0 none = (some (newResponse hr none), none, none) := by
      simp [clientDo, hok, hchk]
    constructor
    · intro e hbody
      simp only [CreateWithContext, getObjectAndClient, hreq, hcd]
      simp [newResponse, populatePageValues, hbody]
    · intro data hbody
      constructor
      · intro hum
        simp only [CreateWithContext, getObjectAndClient, hreq, hcd]
        simp [newResponse, populatePageValues, hbody, hum]
      · intro d hum
        simp only [CreateWithContext, getObjectAndClient, hreq, hcd]
        simp [newResponse, populatePageValues, hbody, hum]

/-- Witness for C6: a concrete create against a 201 response whose body
unmarshals. -/
theorem c6_witness :
    urlValid "api/v3/projects/p/work_packages" = true ∧
    (CreateWithContext (fun _ => .ok ⟨201, .bytes "wp-body"⟩) (fun _ _ => none)
        (fun data k => some (.objD k data))
        (.svc .workPackage ⟨"https://srv/", ⟨.noAuth, "", ""⟩, none⟩)
        "api/v3/projects/p/work_packages").2.map (fun req => (req.method, req.body)) =
      [("POST", some (OPValue.zero .workPackage))] :=
  ⟨by decide,
    (c6_create_zero_body_separate_decode (fun _ => .ok ⟨201, .bytes "wp-body"⟩)
      (fun _ _ => none) (fun _ _ => none) (fun data k => some (.objD k data))
      ⟨"https://srv/", ⟨.noAuth, "", ""⟩, none⟩ .workPackage
      "api/v3/projects/p/work_packages" (by decide)).1⟩

/-- Inserting a value whose key is absent appends a fresh singleton
entry. -/
theorem insertPairValue_notMem (k v : String) (acc : List (String × List String))
    (h : k ∉ acc.map Prod.fst) :
    insertPairValue k v acc = acc ++ [(k, [v])] := by
  induction acc with
  | nil => rfl
  | cons kv rest ih =>
    rw [List.map_cons, List.mem_cons] at h
    push_neg at h
    obtain ⟨hk, hrest⟩ := h
    have hbe : (kv.1 == k) = false := beq_eq_false_iff_ne.mpr (fun hcon => hk hcon.symm)
    cases kv with
    | mk k1 vs =>
      simp only [insertPairValue, hbe, Bool.false_eq_true, if_false, List.cons_append,
        List.cons.injEq, true_and]
      exact ih hrest

/-- When all keys of the processed pairs are distinct and absent from the
accumulator, the url.Values fold appends one singleton entry per pair. -/
theorem foldl_insertPairValue_apart (q : List (String × String)) :
    ∀ acc : List (String × List String),
      (∀ kv ∈ q, kv.1 ∉ acc.map Prod.fst) → (q.map Prod.fst).Nodup →
      q.foldl (fun acc kv => insertPairValue kv.1 kv.2 acc) acc =
        acc ++ q.map (fun kv => (kv.1, [kv.2])) := by
  induction q with
  | nil => intro acc _ _; simp
  | cons kv rest ih =>
    intro acc hapart hnodup
    rw [List.map_cons, List.nodup_cons] at hnodup
    obtain ⟨hknotin, hrestnodup⟩ := hnodup
    rw [List.foldl_cons,
      insertPairValue_notMem kv.1 kv.2 acc (hapart kv (List.mem_cons_self kv rest))]
    rw [ih (acc ++ [(kv.1, [kv.2])]) ?_ hrestnodup]
    · simp
    · intro kv2 hkv2
      rw [List.map_append, List.mem_append]
      push_neg
      refine ⟨hapart kv2 (List.mem_cons_of_mem kv hkv2), ?_⟩
      simp only [List.map_cons, List.map_nil, List.mem_singleton]
      intro hcon
      exact hknotin (hcon ▸ List.mem_map_of_mem Prod.fst hkv2)

/-- With pairwise-distinct keys the url.Values grouping is one singleton
entry per supplied pair, in order. -/
theorem groupQuery_nodup (q : List (String × String))
    (hnodup : (q.map Prod.fst).Nodup) :
    groupQuery q = q.map (fun kv => (kv.1, [kv.2])) := by
  have := foldl_insertPairValue_apart q [] (fun kv _ => by simp) hnodup
  simpa [groupQuery] using this

/-- Dropping the jwt pairs before canonicalization changes nothing, since
the canonical filter already drops them. -/
theorem filterMap_canonPair_filter_jwt (q : List (String × String)) :
    q.filterMap (fun kv => if kv.1 == "jwt" then none
        else some (canonPairStr kv.1 [kv.2])) =
      (q.filter (fun kv => !(kv.1 == "jwt"))).filterMap
        (fun kv => if kv.1 == "jwt" then none else some (canonPairStr kv.1 [kv.2])) := by
  induction q with
  | nil => rfl
  | cons kv rest ih =>
    rw [List.filterMap_cons, List.filter_cons]
    cases hj : (kv.1 == "jwt") with
    | true =>
      rw [if_pos rfl]
      rw [if_neg (by simp)]
      exact ih
    | false =>
      rw [if_neg (by simp), if_pos (show (!false) = true from rfl), List.filterMap_cons,
        if_neg (by simp [hj])]
      rw [ih]

/-- C2 (amended): for query parameter lists with pairwise-distinct names,
the canonical string equals the specification formula — uppercased
method, normalized path, and the sorted URL-escaped key=value pairs
joined with ampersands, the jwt parameter excluded — and is therefore
identical for any two supply orders of the same parameters; dropping a
jwt parameter does not change it. -/
theorem c2_canonical_string_order_independent (method path : String)
    (q1 q2 : List (String × String)) (hperm : q1.Perm q2)
    (hnodup : (q1.map Prod.fst).Nodup) :
    canonicalizeRequest method path q1 = canonicalizeRequest method path q2 ∧
    canonicalizeRequest method path q1 = canonicalStringSpec method path q1 ∧
    canonicalizeRequest method path q1 =
      canonicalizeRequest method path (q1.filter (fun kv => !(kv.1 == "jwt"))) := by
  have hnodup2 : (q2.map Prod.fst).Nodup := ((hperm.map Prod.fst).nodup_iff).mp hnodup
  have hpairs : ∀ q : List (String × String), (q.map Prod.fst).Nodup →
      (groupQuery q).filterMap
          (fun kv => if kv.1 == "jwt" then none else some (canonPairStr kv.1 kv.2)) =
        q.filterMap (fun kv => if kv.1 == "jwt" then none
          else some (canonPairStr kv.1 [kv.2])) := by
    intro q hq
    rw [groupQuery_nodup q hq, List.filterMap_map]
    rfl
  have hsorteq :
      List.insertionSort strLe
          (q1.filterMap (fun kv => if kv.1 == "jwt" then none
            else some (canonPairStr kv.1 [kv.2]))) =
        List.insertionSort strLe
          (q2.filterMap (fun kv => if kv.1 == "jwt" then none
            else some (canonPairStr kv.1 [kv.2]))) :=
    List.eq_of_perm_of_sorted
      ((List.perm_insertionSort _ _).trans
        ((hperm.filterMap _).trans (List.perm_insertionSort _ _).symm))
      (List.sorted_insertionSort _ _) (List.sorted_insertionSort _ _)
  refine ⟨?_, ?_, ?_⟩
  · simp only [canonicalizeRequest]
    rw [hpairs q1 hnodup, hpairs q2 hnodup2, hsorteq]
  · simp only [canonicalizeRequest, canonicalStringSpec]
    rw [hpairs q1 hnodup]
  · have hnodupf : ((q1.filter (fun kv => !(kv.1 == "jwt"))).map Prod.fst).Nodup := by
      have hsub : List.Sublist
          ((q1.filter (fun kv => !(kv.1 == "jwt"))).map Prod.fst)
          (q1.map Prod.fst) := (List.filter_sublist q1).map Prod.fst
      exact hnodup.sublist hsub
    simp only [canonicalizeRequest]
    rw [hpairs q1 hnodup, hpairs _ hnodupf, ← filterMap_canonPair_filter_jwt]

/-- Witness for C2 at two supply orders of the same parameters,
including a jwt parameter that is dropped. -/
theorem c2_witness :
    ([("b", "2"), ("a", "1"), ("jwt", "tok")].Perm
        [("jwt", "tok"), ("a", "1"), ("b", "2")] :
      Prop) ∧
    ([("b", "2"), ("a", "1"), ("jwt", "tok")].map
        (Prod.fst (α := String) (β := String))).Nodup ∧
    canonicalizeRequest "get" "/rest/api/x/" [("b", "2"), ("a", "1"), ("jwt", "tok")] =
      canonicalizeRequest "get" "/rest/api/x/" [("jwt", "tok"), ("a", "1"), ("b", "2")] ∧
    canonicalizeRequest "get" "/rest/api/x/" [("b", "2"), ("a", "1"), ("jwt", "tok")] =
      canonicalStringSpec "get" "/rest/api/x/" [("b", "2"), ("a", "1"), ("jwt", "tok")] ∧
    canonicalizeRequest "get" "/rest/api/x/" [("b", "2"), ("a", "1"), ("jwt", "tok")] =
      "GET&/rest/api/x&a=1&b=2" :=
  ⟨by decide, by decide,
    (c2_canonical_string_order_independent "get" "/rest/api/x/"
      [("b", "2"), ("a", "1"), ("jwt", "tok")] [("jwt", "tok"), ("a", "1"), ("b", "2")]
      (by decide) (by decide)).1,
    (c2_canonical_string_order_independent "get" "/rest/api/x/"
      [("b", "2"), ("a", "1"), ("jwt", "tok")] [("jwt", "tok"), ("a", "1"), ("b", "2")]
      (by decide) (by decide)).2.1,
    by decide⟩

end OpenProject
